import Mathlib

/-!
Verification development for the magebonk combat-simulation core.

The development shallowly embeds the combat engine:

* `EnemyManager` (the horde director, `EnemyManager.js`): its wave state
  machine, spawn throttling, death accounting and reset are embedded as an
  executable transition system over `HordeState`, with the environment's
  nondeterminism (frame lengths, which enemy a projectile strikes, the
  boss's random summon count, `setTimeout` firings) determinized into an
  explicit event alphabet `Ev`.  JS float timers (seconds) are modeled in
  integer milliseconds; `Game.animate` clamps a frame's `deltaTime` to
  `0.1 s`, so a tick carries `0 ≤ dt ≤ 100` ms.
* `SpellManager.castSpell` with its per-spell cooldown bookkeeping.
* The per-enemy class of `Game.js` (`Enemy`: state machine, knockback
  physics, `takeDamage`) and the projectile hit test
  `EnemyManager.checkProjectileHit`, over real-number 3D vectors.
* `Enemy.applySeparation` of the older `Enemy.js` class.

Purely visual effects (meshes, colors, particle emissions, UI text) and
audio are dropped; fields are kept exactly when any embedded logic reads
them.
-/

namespace Magebonk

/-- Horde cycle phases: the `STATE_REST` … `STATE_VICTORY` string constants
of `EnemyManager.js`. -/
inductive Phase where
  | rest
  | announce
  | countdown
  | wave
  | victory
deriving DecidableEq, Repr

/-- The `config.type` strings that the manager logic inspects:
`'normal'` (default) and `'clone'` (boss-summoned minions). -/
inductive EKind where
  | normal
  | clone
deriving DecidableEq, Repr

/-- Enemy archetype configuration, restricted to the fields the manager
logic reads: `type`, `hp` (used as max hp), `isMiniBoss`, `isBoss`.
Visual fields (`scale`, `color`, `speed`) do not feed back into manager
state and are omitted at this level. -/
structure MConfig where
  kind : EKind := EKind.normal
  hp : Int := 30
  isMiniBoss : Bool := false
  isBoss : Bool := false
deriving DecidableEq, Repr

/-- Manager-level view of one `Enemy` object: identity (JS object
reference, modeled as a numeric id), its config, mutable hp, the
`isDead` flag, and the boss summon timer (ms). -/
structure MEnemy where
  id : Nat
  config : MConfig
  hp : Int
  dead : Bool := false
  summonTimer : Int := 0
deriving DecidableEq, Repr

/-- The whole `EnemyManager` state.  `pendingTimers` models the queue of
outstanding `setTimeout` bodies scheduled by `executeSpawn` (all with the
same 500 ms delay, hence FIFO); `nextId` feeds fresh enemy identities. -/
structure HordeState where
  phase : Phase
  hordeLevel : Nat
  stateTimer : Int
  totalEnemiesInWave : Nat
  enemiesSpawnedCount : Nat
  enemiesKilledCount : Nat
  maxActiveEnemies : Nat
  pendingSpawns : Int
  currentBoss : Option Nat
  lastCountdownInt : Int
  enemies : List MEnemy
  pendingTimers : List MConfig
  nextId : Nat
deriving DecidableEq, Repr

/-- The `EnemyManager` constructor state: `STATE_REST`, level 1, 5 s rest
timer, zero counters, cap 15, no enemies. -/
def initHorde : HordeState where
  phase := Phase.rest
  hordeLevel := 1
  stateTimer := 5000
  totalEnemiesInWave := 0
  enemiesSpawnedCount := 0
  enemiesKilledCount := 0
  maxActiveEnemies := 15
  pendingSpawns := 0
  currentBoss := none
  lastCountdownInt := 0
  enemies := []
  pendingTimers := []
  nextId := 0

/-- `calculateWaveSize`: boss levels (`level % 5 === 0`) have a single
enemy, otherwise `5 + level * 2`. -/
def calculateWaveSize (level : Nat) : Nat :=
  if level % 5 = 0 then 1 else 5 + level * 2

/-- The config chosen by `spawnNextEnemy` for the spawn whose (already
incremented) `enemiesSpawnedCount` is `spawnIdx`: the boss on boss levels;
on even levels the first `⌊level/2⌋` spawns are mini-bosses
(`hp = 120 + level*15`), the rest normal (`hp = 20 + level*2`); odd levels
are all normal.  The boss and mini-boss configs carry no `type` field in
the source, so the constructor merge leaves them `'normal'`. -/
def spawnConfigFor (level : Nat) (spawnIdx : Nat) : MConfig :=
  if level % 5 = 0 then
    { kind := EKind.normal, hp := 400 + (level : Int) * 50, isBoss := true }
  else if level % 2 = 0 then
    if spawnIdx ≤ level / 2 then
      { kind := EKind.normal, hp := 120 + (level : Int) * 15, isMiniBoss := true }
    else
      { kind := EKind.normal, hp := 20 + (level : Int) * 2 }
  else
    { kind := EKind.normal, hp := 20 + (level : Int) * 2 }

/-- The clone config built inside `bossSummon`:
`{ type: 'clone', hp: 15 + hordeLevel, … }`. -/
def cloneConfig (level : Nat) : MConfig :=
  { kind := EKind.clone, hp := 15 + (level : Int) }

/-- `executeSpawn` up to its `setTimeout`: emits the smoke effect (visual,
dropped) and schedules the materialization body 500 ms later. -/
def executeSpawn (s : HordeState) (cfg : MConfig) : HordeState :=
  { s with pendingTimers := s.pendingTimers ++ [cfg] }

/-- The body of the `setTimeout` inside `executeSpawn`, run when the
oldest scheduled telegraph delay elapses: decrement `pendingSpawns`
(clamped at 0 by `Math.max`), and construct and register the `Enemy` only
if the state is still `WAVE` or `ANNOUNCE`; a boss records itself as
`currentBoss`. -/
def executeSpawnTimeout (s : HordeState) : HordeState :=
  match s.pendingTimers with
  | [] => s
  | cfg :: rest =>
    let s1 : HordeState :=
      { s with pendingTimers := rest, pendingSpawns := max 0 (s.pendingSpawns - 1) }
    if s1.phase ≠ Phase.wave ∧ s1.phase ≠ Phase.announce then s1
    else
      { s1 with
          nextId := s1.nextId + 1
          currentBoss := if cfg.isBoss then some s1.nextId else s1.currentBoss
          enemies := s1.enemies ++
            [{ id := s1.nextId, config := cfg, hp := cfg.hp, dead := false, summonTimer := 0 }] }

/-- `spawnNextEnemy`: increments `enemiesSpawnedCount` and `pendingSpawns`
immediately, then calls `executeSpawn` with the config selected from the
level and the incremented spawn count (the spawn position is irrelevant to
manager accounting and dropped). -/
def spawnNextEnemy (s : HordeState) : HordeState :=
  let s1 : HordeState :=
    { s with
        enemiesSpawnedCount := s.enemiesSpawnedCount + 1
        pendingSpawns := s.pendingSpawns + 1 }
  executeSpawn s1 (spawnConfigFor s1.hordeLevel s1.enemiesSpawnedCount)

/-- `bossSummon`: schedules `count = ⌊random*4⌋ + 3 ∈ [3,6]` clone spawns
via `executeSpawn`; the random draw is determinized as `r : Fin 4`.  Note
that, unlike `spawnNextEnemy`, it increments neither
`enemiesSpawnedCount` nor `pendingSpawns`. -/
def bossSummon (s : HordeState) (r : Fin 4) : HordeState :=
  (List.range (r.val + 3)).foldl (fun acc _ => executeSpawn acc (cloneConfig acc.hordeLevel)) s

/-- `Enemy.takeDamage`'s effect on the fields the manager reads:
`hp -= amount`, and `die()` sets `isDead` when the resulting hp is `≤ 0`
(there is no clamping of `hp` in the source). -/
def takeDamageM (e : MEnemy) (amount : Int) : MEnemy :=
  { e with
      hp := e.hp - amount
      dead := if e.hp - amount ≤ 0 then true else e.dead }

/-- `handleEnemyDeath`, called (synchronously, inside `die()`) with the
dead enemy's config.  If the boss died: clear `currentBoss` and call
`takeDamage(9999, null, 0)` on every live clone.  (Each clone killed by
that cascade recursively enters `handleEnemyDeath`; clones are never
boss-flagged — `bossSummon` builds them with `type:'clone'` only — and a
clone death never increments `enemiesKilledCount`, so those recursive
calls leave the manager state unchanged and are inlined away here.)
Then the killed counter: a non-clone death during `WAVE` increments
`enemiesKilledCount`; the progress-bar refresh is visual and dropped. -/
def handleEnemyDeath (s : HordeState) (cfg : MConfig) : HordeState :=
  let s1 : HordeState :=
    if cfg.isBoss then
      { s with
          currentBoss := none
          enemies := s.enemies.map (fun o =>
            if o.config.kind = EKind.clone ∧ o.dead = false then takeDamageM o 9999 else o) }
    else s
  if s1.phase = Phase.wave ∧ cfg.kind ≠ EKind.clone then
    { s1 with enemiesKilledCount := s1.enemiesKilledCount + 1 }
  else s1

/-- A projectile hit on the enemy at list position `i` (which concrete
enemy a projectile reaches is decided by geometry, i.e. by the
environment).  Mirrors the body of `checkProjectileHit` as far as manager
state goes: dead enemies are skipped, a struck enemy takes the
projectile's damage, and a death runs `handleEnemyDeath`. -/
def hitEnemy (s : HordeState) (i : Nat) (dmg : Int) : HordeState :=
  match s.enemies[i]? with
  | none => s
  | some e =>
    if e.dead then s
    else
      let e1 := takeDamageM e dmg
      let s1 : HordeState := { s with enemies := s.enemies.set i e1 }
      if e1.dead then handleEnemyDeath s1 e.config else s1

/-- `clearAllEnemies`: disposes every enemy and empties the list, zeroes
`pendingSpawns`, resets the level to 1, clears the boss reference, and
returns to `REST` with its full 5 s timer.  The source does NOT touch
`totalEnemiesInWave`, `enemiesSpawnedCount`, `enemiesKilledCount`,
`lastCountdownInt`, nor the already-scheduled `setTimeout`s
(`pendingTimers`). -/
def clearAllEnemies (s : HordeState) : HordeState :=
  { s with
      enemies := []
      pendingSpawns := 0
      hordeLevel := 1
      currentBoss := none
      phase := Phase.rest
      stateTimer := 5000 }

/-- `enterAnnounceState` (UI text dropped): 3 s announce timer. -/
def enterAnnounceState (s : HordeState) : HordeState :=
  { s with phase := Phase.announce, stateTimer := 3000 }

/-- `updateRestState`: count the rest timer down; on expiry enter
`ANNOUNCE`. -/
def updateRestState (s : HordeState) (dt : Int) : HordeState :=
  let s1 : HordeState := { s with stateTimer := s.stateTimer - dt }
  if s1.stateTimer ≤ 0 then enterAnnounceState s1 else s1

/-- `enterCountdownState`: 3.5 s countdown, `lastCountdownInt = 4`. -/
def enterCountdownState (s : HordeState) : HordeState :=
  { s with phase := Phase.countdown, stateTimer := 3500, lastCountdownInt := 4 }

/-- `updateAnnounceState`: count down; on expiry enter `COUNTDOWN`. -/
def updateAnnounceState (s : HordeState) (dt : Int) : HordeState :=
  let s1 : HordeState := { s with stateTimer := s.stateTimer - dt }
  if s1.stateTimer ≤ 0 then enterCountdownState s1 else s1

/-- `Math.ceil` of a millisecond count read in seconds (the countdown's
`Math.ceil(this.stateTimer)`). -/
def ceilSeconds (t : Int) : Int :=
  -((-t).ediv 1000)

/-- `enterWaveState`: switch to `WAVE`, compute the wave size, zero the
three per-wave counters and `pendingSpawns`, and drop the boss
reference.  (`stateTimer` is left as it was.) -/
def enterWaveState (s : HordeState) : HordeState :=
  { s with
      phase := Phase.wave
      totalEnemiesInWave := calculateWaveSize s.hordeLevel
      enemiesSpawnedCount := 0
      enemiesKilledCount := 0
      pendingSpawns := 0
      currentBoss := none }

/-- `updateCountdownState`: count down, emit at most one overlay tick per
integer value (display only; the `lastCountdownInt` bookkeeping is kept),
and enter the wave on expiry. -/
def updateCountdownState (s : HordeState) (dt : Int) : HordeState :=
  let t := s.stateTimer - dt
  let cur := ceilSeconds t
  let s1 : HordeState :=
    { s with
        stateTimer := t
        lastCountdownInt := if cur < s.lastCountdownInt ∧ 0 < cur then cur else s.lastCountdownInt }
  if s1.stateTimer ≤ 0 then enterWaveState s1 else s1

/-- `enterVictoryState`: 3 s victory timer (overlay message dropped). -/
def enterVictoryState (s : HordeState) : HordeState :=
  { s with phase := Phase.victory, stateTimer := 3000 }

/-- `updateWaveState`: if the wave still owes spawns and
`enemies.length + pendingSpawns` is under `maxActiveEnemies`, issue one
spawn request; then check the victory condition. -/
def updateWaveState (s : HordeState) : HordeState :=
  let currentTotal : Int := (s.enemies.length : Int) + s.pendingSpawns
  let s1 : HordeState :=
    if s.enemiesSpawnedCount < s.totalEnemiesInWave ∧ currentTotal < (s.maxActiveEnemies : Int)
    then spawnNextEnemy s else s
  if s1.totalEnemiesInWave ≤ s1.enemiesKilledCount then enterVictoryState s1 else s1

/-- `updateVictoryState`: count down; on expiry increment the level and
return to `REST` with its full timer. -/
def updateVictoryState (s : HordeState) (dt : Int) : HordeState :=
  let s1 : HordeState := { s with stateTimer := s.stateTimer - dt }
  if s1.stateTimer ≤ 0 then
    { s1 with hordeLevel := s1.hordeLevel + 1, phase := Phase.rest, stateTimer := 5000 }
  else s1

/-- The `switch (this.state)` dispatch at the top of
`EnemyManager.update`. -/
def managerPhaseStep (s : HordeState) (dt : Int) : HordeState :=
  match s.phase with
  | Phase.rest => updateRestState s dt
  | Phase.announce => updateAnnounceState s dt
  | Phase.countdown => updateCountdownState s dt
  | Phase.wave => updateWaveState s
  | Phase.victory => updateVictoryState s dt

/-- The manager-relevant part of `Enemy.update(dt)` for one enemy: a dead
enemy returns immediately; a live boss accumulates `summonTimer` and on
reaching the 8 s `summonInterval` resets it and triggers `bossSummon`
(reported as the returned flag).  The AI / physics part of `Enemy.update`
mutates only the enemy's own position, state and mesh plus the player's
hp — never the manager — and is modeled at the geometric level below. -/
def enemyUpdateM (dt : Int) (e : MEnemy) : MEnemy × Bool :=
  if e.dead then (e, false)
  else if e.config.isBoss then
    if 8000 ≤ e.summonTimer + dt then ({ e with summonTimer := 0 }, true)
    else ({ e with summonTimer := e.summonTimer + dt }, false)
  else (e, false)

/-- The per-enemy loop at the bottom of `EnemyManager.update`: update each
enemy (firing `bossSummon` for each boss whose interval elapsed), then
splice out the no-longer-alive ones. -/
def enemiesStep (s : HordeState) (dt : Int) (r : Fin 4) : HordeState :=
  let stepped := s.enemies.map (enemyUpdateM dt)
  let fired := (stepped.filter (fun q => q.2)).length
  let s1 : HordeState :=
    { s with enemies := (stepped.map Prod.fst).filter (fun e => !e.dead) }
  (List.range fired).foldl (fun acc _ => bossSummon acc r) s1

/-- One frame of `EnemyManager.update(dt)`: phase dispatch, then the
enemy loop.  (The boss health-bar refresh at the top is visual only.) -/
def managerUpdate (s : HordeState) (dt : Int) (r : Fin 4) : HordeState :=
  enemiesStep (managerPhaseStep s dt) dt r

/-- The two projectile kinds `SpellManager` casts. -/
inductive ProjKind where
  | fireball
  | ice
deriving DecidableEq, Repr

/-- `Projectile.damage`: 25 for a fireball, 20 otherwise. -/
def projDamage : ProjKind → Int
  | ProjKind.fireball => 25
  | ProjKind.ice => 20

/-- The event alphabet driving the manager model: a frame tick (with its
clamped `dt` and the boss-summon random draw), the elapsing of the oldest
spawn telegraph `setTimeout`, a projectile striking the enemy at a list
position, and the full reset. -/
inductive Ev where
  | tick (dt : Int) (r : Fin 4)
  | spawnTimeout
  | hit (i : Nat) (k : ProjKind)
  | clearAll
deriving DecidableEq, Repr

/-- Event application.  A tick outside the `Game.animate` clamp
`0 ≤ dt ≤ 0.1 s` cannot occur and is a no-op. -/
def applyEv (s : HordeState) : Ev → HordeState
  | Ev.tick dt r => if 0 ≤ dt ∧ dt ≤ 100 then managerUpdate s dt r else s
  | Ev.spawnTimeout => executeSpawnTimeout s
  | Ev.hit i k => hitEnemy s i (projDamage k)
  | Ev.clearAll => clearAllEnemies s

/-- Run a sequence of events. -/
def runEvents (s : HordeState) (evs : List Ev) : HordeState :=
  evs.foldl applyEv s

/-- A `HordeState` is reachable when some event sequence produces it from
the constructor state. -/
def ReachableHorde (s : HordeState) : Prop :=
  ∃ evs : List Ev, runEvents initHorde evs = s

/-- The live entities of a state (`isAlive()` filter). -/
def liveEnemyCount (s : HordeState) : Nat :=
  (s.enemies.filter (fun e => !e.dead)).length

/-- `n` maximal frames (`dt = 100 ms`, summon draw 3 i.e. batches of 6). -/
def tickN (n : Nat) : List Ev :=
  List.replicate n (Ev.tick 100 3)

/-- `n` spawn-telegraph timeouts elapsing. -/
def spawnTimeouts (n : Nat) : List Ev :=
  List.replicate n Ev.spawnTimeout

/-- `count` enemies starting at list position `start`, each struck by
`per` fireballs. -/
def hitRun (start count per : Nat) : List Ev :=
  match count with
  | 0 => []
  | c + 1 => List.replicate per (Ev.hit start ProjKind.fireball) ++ hitRun (start + 1) c per

/-- The pre-wave run-up of one horde cycle: rest (5 s) + announce (3 s) +
countdown (3.5 s) at 0.1 s frames. -/
def preWave : List Ev := tickN 115

/-- The in-wave part of a cleared wave: `spawns` frames each issuing one
spawn, their telegraph timeouts, the given kill events, one frame to
trigger the victory transition, and the 3 s victory phase. -/
def waveBody (spawns : Nat) (hits : List Ev) : List Ev :=
  tickN spawns ++ spawnTimeouts spawns ++ hits ++ tickN 31

/-- The segments of the level-5 boss scenario: spawn + materialize the
boss, then two 12 s stretches (the 8 s summon interval fires at frames
80, 200 and 240), then let all 18 scheduled clones materialize. -/
def bossSpawnSeg : List Ev := tickN 1 ++ spawnTimeouts 1

/-- A run that clears waves 1–4 and then, on the boss level 5, lets the
boss summon three batches of 6 clones (8 s apart) which all materialize:
the live population reaches 19 while `maxActiveEnemies = 15`. -/
def c3Trace : List Ev :=
  preWave ++ waveBody 7 (hitRun 0 7 1) ++
  preWave ++ waveBody 9 (hitRun 0 1 6 ++ hitRun 1 8 1) ++
  preWave ++ waveBody 11 (hitRun 0 11 2) ++
  preWave ++ waveBody 13 (hitRun 0 2 8 ++ hitRun 2 11 2) ++
  preWave ++ bossSpawnSeg ++ tickN 120 ++ tickN 120 ++ spawnTimeouts 18

/-- A clean (no live enemies, no scheduled spawns) intermediate state of
the `c3Trace` run. -/
def cleanState (ph : Phase) (level : Nat) (timer : Int) (tot spawned killed nid : Nat) :
    HordeState where
  phase := ph
  hordeLevel := level
  stateTimer := timer
  totalEnemiesInWave := tot
  enemiesSpawnedCount := spawned
  enemiesKilledCount := killed
  maxActiveEnemies := 15
  pendingSpawns := 0
  currentBoss := none
  lastCountdownInt := 1
  enemies := []
  pendingTimers := []
  nextId := nid

/-- The level-5 wave of the `c3Trace` run with the boss (id 40) live, a
given summon-timer value and a given clone-spawn telegraph queue. -/
def bossWaveState (st : Int) (timers : List MConfig) : HordeState where
  phase := Phase.wave
  hordeLevel := 5
  stateTimer := 0
  totalEnemiesInWave := 1
  enemiesSpawnedCount := 1
  enemiesKilledCount := 0
  maxActiveEnemies := 15
  pendingSpawns := 0
  currentBoss := some 40
  lastCountdownInt := 1
  enemies := [{ id := 40
                config := { kind := EKind.normal, hp := 650, isMiniBoss := false, isBoss := true }
                hp := 650
                dead := false
                summonTimer := st }]
  pendingTimers := timers
  nextId := 41

/-- A short run: reach wave 1 (`totalEnemiesInWave = 7`), issue one spawn
request, then reset. -/
def c7Trace : List Ev :=
  tickN 115 ++ tickN 1 ++ [Ev.clearAll]

/-- A wave state at level 9985 where the boss is down to 5 hp and one of
its summoned clones (spawned with `cloneConfig 9985`, i.e. 10000 hp) is
live and untouched. -/
def c2CexState : HordeState where
  phase := Phase.wave
  hordeLevel := 9985
  stateTimer := 0
  totalEnemiesInWave := 1
  enemiesSpawnedCount := 1
  enemiesKilledCount := 0
  maxActiveEnemies := 15
  pendingSpawns := 0
  currentBoss := some 0
  lastCountdownInt := 1
  enemies :=
    [{ id := 0
       config := { kind := EKind.normal, hp := 400 + 9985 * 50, isMiniBoss := false, isBoss := true }
       hp := 5
       dead := false
       summonTimer := 0 },
     { id := 1, config := cloneConfig 9985, hp := 15 + 9985, dead := false, summonTimer := 0 }]
  pendingTimers := []
  nextId := 2

/-- A concrete wave-phase state with one live clone, used to instantiate
universally quantified theorems. -/
def c2WitState : HordeState where
  phase := Phase.wave
  hordeLevel := 5
  stateTimer := 0
  totalEnemiesInWave := 1
  enemiesSpawnedCount := 1
  enemiesKilledCount := 0
  maxActiveEnemies := 15
  pendingSpawns := 0
  currentBoss := some 40
  lastCountdownInt := 1
  enemies := [{ id := 41, config := cloneConfig 5, hp := 20, dead := false, summonTimer := 0 }]
  pendingTimers := []
  nextId := 42

/-- The spell names `SpellManager.castSpell` recognizes. -/
inductive SpellKind where
  | fireball
  | ice
deriving DecidableEq, Repr

/-- `SpellManager` state relevant to casting: the two cooldown deadlines
(`Date.now()`-based ms timestamps, 0 before the first cast) and, as
observable effects, the projectiles created and the sounds played. -/
structure SpellState where
  cooldownFireball : Int := 0
  cooldownIce : Int := 0
  projectilesCast : List SpellKind := []
  soundsPlayed : List SpellKind := []
deriving DecidableEq, Repr

/-- `this.cooldowns[spellName]`. -/
def cooldownOf (s : SpellState) : SpellKind → Int
  | SpellKind.fireball => s.cooldownFireball
  | SpellKind.ice => s.cooldownIce

/-- `this.maxCooldowns`: fireball 500 ms, ice 300 ms. -/
def maxCooldownOf : SpellKind → Int
  | SpellKind.fireball => 500
  | SpellKind.ice => 300

/-- `SpellManager.castSpell(spellName)` at time `now = Date.now()`: the
guard `if (this.cooldowns[spellName] && now < this.cooldowns[spellName])
return;` (`&&` is JS truthiness: a deadline of 0 never blocks), then per
spell: create one projectile, play the spell sound, and set the new
cooldown deadline `now + maxCooldown`.  The camera / origin computation
and the HUD spell-name text affect no modeled state and are dropped. -/
def castSpell (s : SpellState) (k : SpellKind) (now : Int) : SpellState :=
  if cooldownOf s k ≠ 0 ∧ now < cooldownOf s k then s
  else
    match k with
    | SpellKind.fireball =>
      { s with
          projectilesCast := s.projectilesCast ++ [SpellKind.fireball]
          soundsPlayed := s.soundsPlayed ++ [SpellKind.fireball]
          cooldownFireball := now + 500 }
    | SpellKind.ice =>
      { s with
          projectilesCast := s.projectilesCast ++ [SpellKind.ice]
          soundsPlayed := s.soundsPlayed ++ [SpellKind.ice]
          cooldownIce := now + 300 }

/-- `updateBossHealthBar`'s displayed bar height: `Math.max(0, hp/maxHp*100)`
(the clamp to 0 is what makes an over-killed boss report as empty, never
negative). -/
def bossBarHeightPercent (hp maxHp : ℚ) : ℚ :=
  max 0 (hp / maxHp * 100)

end Magebonk

namespace Magebonk

/-! ### Geometric layer

`THREE.Vector3` is modeled as a triple of reals; JS float arithmetic is
modeled as exact real arithmetic. -/

noncomputable section Geometry

open Classical

/-- A `THREE.Vector3`. -/
structure Vec3 where
  x : ℝ
  y : ℝ
  z : ℝ

instance : Zero Vec3 := ⟨⟨0, 0, 0⟩⟩

instance : Add Vec3 := ⟨fun a b => ⟨a.x + b.x, a.y + b.y, a.z + b.z⟩⟩

instance : Sub Vec3 := ⟨fun a b => ⟨a.x - b.x, a.y - b.y, a.z - b.z⟩⟩

/-- `v.multiplyScalar(c)`. -/
def Vec3.smul (c : ℝ) (v : Vec3) : Vec3 :=
  ⟨c * v.x, c * v.y, c * v.z⟩

/-- `v.length()`. -/
def Vec3.length (v : Vec3) : ℝ :=
  Real.sqrt (v.x ^ 2 + v.y ^ 2 + v.z ^ 2)

/-- `a.distanceTo(b)`. -/
def Vec3.dist (a b : Vec3) : ℝ :=
  (a - b).length

/-- `v.normalize()`: `THREE` divides by `length || 1`, so the zero vector
stays the zero vector. -/
def Vec3.normalize (v : Vec3) : Vec3 :=
  if v.length = 0 then v else Vec3.smul (1 / v.length) v

/-- The behavior states of the `Game.js` `Enemy` class (death is the
separate `isDead` flag there). -/
inductive GState where
  | wandering
  | chasing
  | attacking
  | stunned
deriving DecidableEq

/-- The archetype config of the `Game.js` `Enemy` after the constructor's
defaults-merge, restricted to fields some embedded logic reads
(`color` is purely visual). -/
structure GConfig where
  kind : EKind := EKind.normal
  hp : Int := 30
  speed : ℝ := 3.5
  patrolSpeed : ℝ := 1.5
  damage : Int := 10
  scale : ℝ := 1.2
  detectionRadius : ℝ := 35.0
  isMiniBoss : Bool := false
  isBoss : Bool := false

/-- The `Game.js` `Enemy`: combat stats, behavior state, physics.
`meshPresent`/`meshPos` model `this.mesh` (null after `dispose()`) and
`this.mesh.position`.  The visual flash/lunge-reset `setTimeout`s touch
only mesh color/offset and are dropped; the lunge offset itself is kept
because the hit test reads the mesh position. -/
structure GEnemy where
  config : GConfig
  hp : Int
  isDead : Bool
  state : GState
  attackRange : ℝ
  attackCooldown : Int
  lastAttackTime : Int
  patrolTarget : Option Vec3
  patrolTimer : ℝ
  idleTimer : ℝ
  summonTimer : ℝ
  summonInterval : ℝ
  position : Vec3
  pushForce : Vec3
  lungeOffset : Vec3
  collisionRadius : ℝ
  friction : ℝ
  meshPresent : Bool
  meshPos : Vec3

/-- Per-frame inputs the enemy update reads from its environment: the
player position, `Date.now()`, the `Math.random()` draws behind the next
patrol point and idle decision, and the mesh's current facing (used only
by the attack lunge). -/
structure EnemyEnv where
  playerPos : Vec3
  now : Int
  patrolX : ℝ
  patrolZ : ℝ
  idleRoll : ℝ
  idleRand : ℝ
  meshForward : Vec3

/-- `getHorizontalDistanceToPlayer`: XZ-plane distance. -/
def getHorizontalDistanceToPlayer (e : GEnemy) (env : EnemyEnv) : ℝ :=
  Real.sqrt ((e.position.x - env.playerPos.x) ^ 2 + (e.position.z - env.playerPos.z) ^ 2)

/-- `applyPhysics(dt)`: displace by `pushForce * dt` and scale the push
force by `Math.max(0, 1 - friction*dt)`. -/
def applyPhysicsG (e : GEnemy) (dt : ℝ) : GEnemy :=
  { e with
      position := e.position + Vec3.smul dt e.pushForce
      pushForce := Vec3.smul (max 0 (1 - e.friction * dt)) e.pushForce }

/-- `takeDamage(amount, knockbackDir, knockbackForce)` of the `Game.js`
`Enemy`: unclamped `hp -= amount`; damage alerts a wandering enemy into
chasing; a supplied knockback direction is flattened to the XZ plane,
re-normalized, scaled by `knockbackForce` times the archetype resistance
(boss 0.1, mini-boss 0.5, else 1.0) and added to `pushForce`, entering
`stunned`; finally `die()` when `hp ≤ 0` (set `isDead`, dispose the mesh,
and notify the manager — the returned count of `handleEnemyDeath`
notifications emitted by this call). -/
def takeDamageG (e : GEnemy) (amount : Int) (kb : Option (Vec3 × ℝ)) : GEnemy × Nat :=
  let e1 : GEnemy := { e with hp := e.hp - amount }
  let e2 : GEnemy :=
    if e1.state = GState.wandering then { e1 with state := GState.chasing, idleTimer := 0 } else e1
  let e3 : GEnemy :=
    match kb with
    | none => e2
    | some (dir, force) =>
      let resistance : ℝ :=
        if e2.config.isBoss then 0.1 else if e2.config.isMiniBoss then 0.5 else 1.0
      let flatDir := Vec3.normalize ⟨dir.x, 0, dir.z⟩
      { e2 with
          pushForce := e2.pushForce + Vec3.smul (force * resistance) flatDir
          state := GState.stunned }
  if e3.hp ≤ 0 then ({ e3 with isDead := true, meshPresent := false }, 1) else (e3, 0)

/-- `attackPlayer`: record the attack time (the player-damage call and
the lunge-reset `setTimeout` are external / visual) and set the forward
lunge offset of length 1.2 along the mesh facing. -/
def attackPlayerG (e : GEnemy) (env : EnemyEnv) : GEnemy :=
  { e with
      lastAttackTime := env.now
      lungeOffset := Vec3.smul 1.2 (Vec3.normalize env.meshForward) }

/-- `updateWandering(dt)`: detect the player; otherwise run out an idle
pause; otherwise (re)pick a patrol point when absent or reached, possibly
entering a 2–4 s idle (30 % chance), else walk toward the target at
`patrolSpeed` (the `lookAt` is visual). -/
def updateWanderingG (e : GEnemy) (env : EnemyEnv) (dt : ℝ) : GEnemy :=
  if getHorizontalDistanceToPlayer e env < e.config.detectionRadius then
    { e with state := GState.chasing }
  else if 0 < e.idleTimer then
    { e with idleTimer := e.idleTimer - dt }
  else
    let needPick :=
      match e.patrolTarget with
      | none => True
      | some t => Vec3.dist e.position t < 1.0
    let tgt : Vec3 :=
      if needPick then ⟨env.patrolX, e.position.y, env.patrolZ⟩
      else e.patrolTarget.getD 0
    let e1 : GEnemy := { e with patrolTarget := some tgt }
    if needPick ∧ env.idleRoll < 0.3 then
      { e1 with idleTimer := 2.0 + env.idleRand * 2.0 }
    else
      { e1 with
          position := e1.position +
            Vec3.smul (e1.config.patrolSpeed * dt)
              (Vec3.normalize ⟨tgt.x - e1.position.x, 0, tgt.z - e1.position.z⟩) }

/-- `updateChasing(dt)`: lose the player beyond `2×detectionRadius`;
attack within `attackRange`; else step toward the player when the push
force is weak (`< 1.0`), otherwise integrate the knockback physics. -/
def updateChasingG (e : GEnemy) (env : EnemyEnv) (dt : ℝ) : GEnemy :=
  let dist := getHorizontalDistanceToPlayer e env
  if e.config.detectionRadius * 2.0 < dist then
    { e with state := GState.wandering }
  else if dist ≤ e.attackRange then
    { e with state := GState.attacking }
  else
    let dir := Vec3.normalize ⟨env.playerPos.x - e.position.x, 0, env.playerPos.z - e.position.z⟩
    if e.pushForce.length < 1.0 then
      { e with position := e.position + Vec3.smul (e.config.speed * dt) dir }
    else
      applyPhysicsG e dt

/-- `updateAttacking(dt)`: fall back to chasing beyond `1.5×attackRange`;
otherwise attack when the cooldown elapsed, and integrate physics. -/
def updateAttackingG (e : GEnemy) (env : EnemyEnv) (dt : ℝ) : GEnemy :=
  let dist := getHorizontalDistanceToPlayer e env
  if e.attackRange * 1.5 < dist then
    { e with state := GState.chasing }
  else
    let e1 : GEnemy :=
      if e.attackCooldown < env.now - e.lastAttackTime then attackPlayerG e env else e
    applyPhysicsG e1 dt

/-- `updateStunned(dt)`: integrate physics; recover to chasing once the
push force has dissipated below 0.5. -/
def updateStunnedG (e : GEnemy) (dt : ℝ) : GEnemy :=
  let e1 := applyPhysicsG e dt
  if e1.pushForce.length < 0.5 then { e1 with state := GState.chasing } else e1

/-- `Enemy.update(dt)` of `Game.js`: no-op when dead or disposed; the
boss summon-timer check (the returned flag reports a `bossSummon`
request to the manager); the state-machine dispatch; finally the mesh is
placed at `position + lungeOffset` (the crown animation is visual). -/
def updateG (e : GEnemy) (env : EnemyEnv) (dt : ℝ) : GEnemy × Bool :=
  if e.isDead ∨ e.meshPresent = false then (e, false)
  else
    let summonStep : GEnemy × Bool :=
      if e.config.isBoss then
        if e.summonInterval ≤ e.summonTimer + dt then ({ e with summonTimer := 0 }, true)
        else ({ e with summonTimer := e.summonTimer + dt }, false)
      else (e, false)
    let e1 := summonStep.1
    let e2 : GEnemy :=
      match e1.state with
      | GState.wandering => updateWanderingG e1 env dt
      | GState.chasing => updateChasingG e1 env dt
      | GState.attacking => updateAttackingG e1 env dt
      | GState.stunned => updateStunnedG e1 dt
    ({ e2 with meshPos := e2.position + e2.lungeOffset }, summonStep.2)

/-- The projectile fields `checkProjectileHit` reads. -/
structure GProjectile where
  pos : Vec3
  radius : ℝ
  damage : Int
  knockbackForce : ℝ

/-- `projectile.radius || 0.5` (JS truthiness on a number). -/
def projEffRadius (p : GProjectile) : ℝ :=
  if p.radius = 0 then 0.5 else p.radius

/-- The hit condition of `checkProjectileHit` for one enemy: not dead and
not disposed, the XZ distance between mesh positions under
`collisionRadius + projRadius`, and the projectile's height above the
enemy base strictly inside the scaled height band `(0, 3·scale)`. -/
def hitPredG (p : GProjectile) (e : GEnemy) : Prop :=
  e.isDead = false ∧ e.meshPresent = true ∧
  Real.sqrt ((e.meshPos.x - p.pos.x) ^ 2 + (e.meshPos.z - p.pos.z) ^ 2)
    < e.collisionRadius + projEffRadius p ∧
  0 < p.pos.y - e.meshPos.y ∧ p.pos.y - e.meshPos.y < 3.0 * e.config.scale

/-- The struck enemy after the hit applies
`takeDamage(projectile.damage, dir, projectile.knockbackForce)` with
`dir = (enemyPos - projPos).normalize()`. -/
def struckEnemyG (p : GProjectile) (e : GEnemy) : GEnemy :=
  (takeDamageG e p.damage (some (Vec3.normalize (e.meshPos - p.pos), p.knockbackForce))).1

/-- `EnemyManager.checkProjectileHit(projectile)` over the enemy list:
walk the list in order; skip dead/disposed enemies; on the first enemy
within the cylindrical hitbox, apply the damage+knockback via
`takeDamage` and return that enemy (the list keeps the mutated object);
return `null` when nothing is struck. -/
def checkProjectileHitG (p : GProjectile) : List GEnemy → Option GEnemy × List GEnemy
  | [] => (none, [])
  | e :: rest =>
    let next := checkProjectileHitG p rest
    if e.isDead = true ∨ e.meshPresent = false then (next.1, e :: next.2)
    else
      let horizontalDist :=
        Real.sqrt ((e.meshPos.x - p.pos.x) ^ 2 + (e.meshPos.z - p.pos.z) ^ 2)
      if horizontalDist < e.collisionRadius + projEffRadius p then
        let dy := p.pos.y - e.meshPos.y
        if 0 < dy ∧ dy < 3.0 * e.config.scale then
          (some (struckEnemyG p e), struckEnemyG p e :: rest)
        else (next.1, e :: next.2)
      else (next.1, e :: next.2)

/-- The behavior states of the older `Enemy.js` class (there `'dead'` is
itself a state string). -/
inductive OState where
  | idle
  | chasing
  | attacking
  | stunned
  | dead
deriving DecidableEq

/-- The older `Enemy.js` enemy: all constructor-initialized state fields
other than the scene/mesh handles and timeout list. -/
structure OEnemy where
  position : Vec3
  velocity : Vec3
  knockbackVelocity : Vec3
  maxHP : Int
  currentHP : Int
  moveSpeed : ℝ
  collisionRadius : ℝ
  state : OState
  detectionRadius : ℝ
  attackRadius : ℝ
  lostPlayerRadius : ℝ
  attackDamage : Int
  attackCooldown : Int
  lastAttackTime : Int
  stunDuration : ℝ
  isStunned : Bool
  knockbackDecay : ℝ
  separationRadius : ℝ

/-- `Enemy.SEPARATION_FORCE_MULTIPLIER`. -/
def separationForceMultiplier : ℝ := 1.2

/-- One neighbor's contribution to the separation force: for another
active enemy at `q` strictly within `separationRadius` and at nonzero
distance, the normalized away-vector scaled by the multiplier times
`deltaTime`; otherwise nothing. -/
def sepContrib (e : OEnemy) (dt : ℝ) (q : Vec3) : Vec3 :=
  if Vec3.dist e.position q < e.separationRadius ∧ 0 < Vec3.dist e.position q then
    Vec3.smul (separationForceMultiplier * dt) (Vec3.normalize (e.position - q))
  else 0

/-- `Enemy.applySeparation(deltaTime)` of the older `Enemy.js`: sum, over
the manager's other active enemies (`others` is their position list; the
`other === this` reference check excludes the enemy itself), the
repulsion contributions in a `separationForce` accumulator, then add it
to the position.  (With no manager the method returns immediately;
`others` models `getActiveEnemies()` with a manager present.) -/
def applySeparationO (e : OEnemy) (others : List Vec3) (dt : ℝ) : OEnemy :=
  let separationForce := others.foldl (fun acc q => acc + sepContrib e dt q) 0
  { e with position := e.position + separationForce }

/-- A concrete live enemy at 10 hp (all other fields as the constructor
of a default-config enemy leaves them, already in the chasing state). -/
def c1Enemy : GEnemy where
  config := {}
  hp := 10
  isDead := false
  state := GState.chasing
  attackRange := 3.0
  attackCooldown := 1500
  lastAttackTime := 0
  patrolTarget := none
  patrolTimer := 0
  idleTimer := 0
  summonTimer := 0
  summonInterval := 8.0
  position := ⟨0, 0, 0⟩
  pushForce := ⟨0, 0, 0⟩
  lungeOffset := ⟨0, 0, 0⟩
  collisionRadius := 1.44
  friction := 4.0
  meshPresent := true
  meshPos := ⟨0, 0, 0⟩

/-- An ice projectile hovering 1 unit above the origin. -/
def c5Proj : GProjectile where
  pos := ⟨0, 1, 0⟩
  radius := 0.3
  damage := 20
  knockbackForce := 1.0

/-- A live default-config enemy standing at the origin (mesh at its
position). -/
def c5Enemy : GEnemy where
  config := {}
  hp := 30
  isDead := false
  state := GState.chasing
  attackRange := 3.0
  attackCooldown := 1500
  lastAttackTime := 0
  patrolTarget := none
  patrolTimer := 0
  idleTimer := 0
  summonTimer := 0
  summonInterval := 8.0
  position := ⟨0, 0, 0⟩
  pushForce := ⟨0, 0, 0⟩
  lungeOffset := ⟨0, 0, 0⟩
  collisionRadius := 1.44
  friction := 4.0
  meshPresent := true
  meshPos := ⟨0, 0, 0⟩

/-- A fixed frame environment: player at the origin, all random draws 0. -/
def cEnv : EnemyEnv where
  playerPos := ⟨0, 0, 0⟩
  now := 0
  patrolX := 0
  patrolZ := 0
  idleRoll := 0
  idleRand := 0
  meshForward := ⟨0, 0, 1⟩

/-- Componentwise sum of a list of vectors (the `separationForce`
accumulator's final value, expressed as a sum). -/
def vecSum (l : List Vec3) : Vec3 :=
  l.foldr (fun v acc => v + acc) 0

/-- A concrete old-style (`Enemy.js`) enemy at the origin. -/
def c9Enemy : OEnemy where
  position := ⟨0, 0, 0⟩
  velocity := ⟨0, 0, 0⟩
  knockbackVelocity := ⟨0, 0, 0⟩
  maxHP := 50
  currentHP := 50
  moveSpeed := 5.0
  collisionRadius := 1.0
  state := OState.chasing
  detectionRadius := 30
  attackRadius := 3
  lostPlayerRadius := 50
  attackDamage := 10
  attackCooldown := 1000
  lastAttackTime := 0
  stunDuration := 0
  isStunned := false
  knockbackDecay := 0.9
  separationRadius := 2.5

end Geometry

/-! ### Helper lemmas -/

theorem runEvents_append (s : HordeState) (a b : List Ev) :
    runEvents s (a ++ b) = runEvents (runEvents s a) b := by
  simp [runEvents]

theorem foldl_executeSpawn_shape (l : List Nat) (s : HordeState) :
    ∃ ts, l.foldl (fun acc _ => executeSpawn acc (cloneConfig acc.hordeLevel)) s
      = { s with pendingTimers := s.pendingTimers ++ ts } := by
  induction l generalizing s with
  | nil => exact ⟨[], by simp⟩
  | cons a t ih =>
    obtain ⟨ts, hts⟩ := ih (executeSpawn s (cloneConfig s.hordeLevel))
    refine ⟨cloneConfig s.hordeLevel :: ts, ?_⟩
    rw [List.foldl_cons, hts]
    simp [executeSpawn]

theorem bossSummon_shape (s : HordeState) (r : Fin 4) :
    ∃ ts, bossSummon s r = { s with pendingTimers := s.pendingTimers ++ ts } :=
  foldl_executeSpawn_shape (List.range (r.val + 3)) s

theorem foldl_bossSummon_shape (l : List Nat) (r : Fin 4) (s : HordeState) :
    ∃ ts, l.foldl (fun acc _ => bossSummon acc r) s
      = { s with pendingTimers := s.pendingTimers ++ ts } := by
  induction l generalizing s with
  | nil => exact ⟨[], by simp⟩
  | cons a t ih =>
    obtain ⟨ts1, h1⟩ := bossSummon_shape s r
    obtain ⟨ts2, h2⟩ := ih (bossSummon s r)
    refine ⟨ts1 ++ ts2, ?_⟩
    rw [List.foldl_cons, h2, h1]
    simp

theorem enemiesStep_shape (s : HordeState) (dt : Int) (r : Fin 4) :
    ∃ es ts,
      enemiesStep s dt r = { s with enemies := es, pendingTimers := s.pendingTimers ++ ts } ∧
      es.length ≤ s.enemies.length := by
  unfold enemiesStep
  obtain ⟨ts, hts⟩ := foldl_bossSummon_shape
    (List.range (((s.enemies.map (enemyUpdateM dt)).filter (fun q => q.2)).length)) r
    { s with enemies := ((s.enemies.map (enemyUpdateM dt)).map Prod.fst).filter (fun e => !e.dead) }
  refine ⟨((s.enemies.map (enemyUpdateM dt)).map Prod.fst).filter (fun e => !e.dead), ts, ?_, ?_⟩
  · rw [hts]
  · calc (((s.enemies.map (enemyUpdateM dt)).map Prod.fst).filter (fun e => !e.dead)).length
        ≤ ((s.enemies.map (enemyUpdateM dt)).map Prod.fst).length := List.length_filter_le _ _
      _ = s.enemies.length := by simp

theorem managerPhaseStep_counterInv (s : HordeState) (dt : Int)
    (h1 : s.enemiesSpawnedCount ≤ s.totalEnemiesInWave) (h2 : 0 ≤ s.pendingSpawns) :
    (managerPhaseStep s dt).enemiesSpawnedCount ≤ (managerPhaseStep s dt).totalEnemiesInWave ∧
    0 ≤ (managerPhaseStep s dt).pendingSpawns := by
  unfold managerPhaseStep
  split
  · unfold updateRestState enterAnnounceState
    dsimp only
    split_ifs <;> exact ⟨h1, h2⟩
  · unfold updateAnnounceState enterCountdownState
    dsimp only
    split_ifs <;> exact ⟨h1, h2⟩
  · unfold updateCountdownState enterWaveState
    dsimp only
    split_ifs <;> simp [h1, h2]
  · unfold updateWaveState spawnNextEnemy executeSpawn enterVictoryState
    dsimp only
    split_ifs with hg hv hv <;> simp_all <;> omega
  · unfold updateVictoryState
    dsimp only
    split_ifs <;> exact ⟨h1, h2⟩

theorem counterInv_applyEv (s : HordeState) (ev : Ev)
    (h1 : s.enemiesSpawnedCount ≤ s.totalEnemiesInWave) (h2 : 0 ≤ s.pendingSpawns) :
    (applyEv s ev).enemiesSpawnedCount ≤ (applyEv s ev).totalEnemiesInWave ∧
    0 ≤ (applyEv s ev).pendingSpawns := by
  cases ev with
  | tick dt r =>
    simp only [applyEv]
    split_ifs with hdt
    · unfold managerUpdate
      obtain ⟨es, ts, hshape, -⟩ := enemiesStep_shape (managerPhaseStep s dt) dt r
      rw [hshape]
      exact managerPhaseStep_counterInv s dt h1 h2
    · exact ⟨h1, h2⟩
  | spawnTimeout =>
    simp only [applyEv]
    unfold executeSpawnTimeout
    cases hpt : s.pendingTimers with
    | nil => exact ⟨h1, h2⟩
    | cons cfg rest =>
      simp only []
      split_ifs <;> simp [h1]
  | hit i k =>
    simp only [applyEv]
    unfold hitEnemy
    cases hi : s.enemies[i]? with
    | none => exact ⟨h1, h2⟩
    | some e =>
      simp only []
      split_ifs with hd hdies
      · exact ⟨h1, h2⟩
      · unfold handleEnemyDeath
        dsimp only
        split_ifs <;> exact ⟨h1, h2⟩
      · exact ⟨h1, h2⟩
  | clearAll =>
    simp only [applyEv]
    unfold clearAllEnemies
    exact ⟨h1, by norm_num⟩

theorem counterInv_run_aux (evs : List Ev) (s : HordeState)
    (h1 : s.enemiesSpawnedCount ≤ s.totalEnemiesInWave) (h2 : 0 ≤ s.pendingSpawns) :
    (runEvents s evs).enemiesSpawnedCount ≤ (runEvents s evs).totalEnemiesInWave ∧
    0 ≤ (runEvents s evs).pendingSpawns := by
  induction evs generalizing s with
  | nil => exact ⟨h1, h2⟩
  | cons e t ih =>
    have h := counterInv_applyEv s e h1 h2
    exact ih (applyEv s e) h.1 h.2

theorem counterInv_run (evs : List Ev) :
    (runEvents initHorde evs).enemiesSpawnedCount ≤ (runEvents initHorde evs).totalEnemiesInWave ∧
    0 ≤ (runEvents initHorde evs).pendingSpawns :=
  counterInv_run_aux evs initHorde (by decide) (by decide)

theorem managerPhaseStep_wave (s : HordeState) (dt : Int) (hw : s.phase = Phase.wave) :
    managerPhaseStep s dt = updateWaveState s := by
  unfold managerPhaseStep
  split <;> simp_all

theorem updateWaveState_skip (s : HordeState)
    (hcap : ¬ ((s.enemies.length : Int) + s.pendingSpawns < (s.maxActiveEnemies : Int))) :
    (updateWaveState s).enemiesSpawnedCount = s.enemiesSpawnedCount ∧
    (updateWaveState s).pendingSpawns = s.pendingSpawns ∧
    (updateWaveState s).enemies = s.enemies ∧
    (updateWaveState s).maxActiveEnemies = s.maxActiveEnemies ∧
    (updateWaveState s).pendingTimers = s.pendingTimers := by
  unfold updateWaveState enterVictoryState
  dsimp only
  split_ifs with hg hv hv <;>
    first
      | exact absurd hg.2 hcap
      | exact ⟨rfl, rfl, rfl, rfl, rfl⟩

theorem updateWaveState_cap (s : HordeState)
    (hsum : (s.enemies.length : Int) + s.pendingSpawns ≤ (s.maxActiveEnemies : Int)) :
    ((updateWaveState s).enemies.length : Int) + (updateWaveState s).pendingSpawns
      ≤ (s.maxActiveEnemies : Int) ∧
    (updateWaveState s).maxActiveEnemies = s.maxActiveEnemies := by
  unfold updateWaveState spawnNextEnemy executeSpawn enterVictoryState
  dsimp only
  split_ifs with hg hv hv <;> simp_all <;> omega

theorem managerUpdate_wave_skip (s : HordeState) (dt : Int) (r : Fin 4)
    (hw : s.phase = Phase.wave)
    (hcap : ¬ ((s.enemies.length : Int) + s.pendingSpawns < (s.maxActiveEnemies : Int))) :
    (managerUpdate s dt r).enemiesSpawnedCount = s.enemiesSpawnedCount ∧
    (managerUpdate s dt r).pendingSpawns = s.pendingSpawns ∧
    (managerUpdate s dt r).maxActiveEnemies = s.maxActiveEnemies := by
  unfold managerUpdate
  rw [managerPhaseStep_wave s dt hw]
  obtain ⟨es, ts, hshape, -⟩ := enemiesStep_shape (updateWaveState s) dt r
  rw [hshape]
  obtain ⟨ha, hb, -, hd, -⟩ := updateWaveState_skip s hcap
  exact ⟨ha, hb, hd⟩

theorem managerUpdate_wave_cap (s : HordeState) (dt : Int) (r : Fin 4)
    (hw : s.phase = Phase.wave)
    (hsum : (s.enemies.length : Int) + s.pendingSpawns ≤ (s.maxActiveEnemies : Int)) :
    ((managerUpdate s dt r).enemies.length : Int) + (managerUpdate s dt r).pendingSpawns
      ≤ (s.maxActiveEnemies : Int) := by
  unfold managerUpdate
  rw [managerPhaseStep_wave s dt hw]
  obtain ⟨es, ts, hshape, hlen⟩ := enemiesStep_shape (updateWaveState s) dt r
  rw [hshape]
  obtain ⟨hcap, -⟩ := updateWaveState_cap s hsum
  have hlen2 : (es.length : Int) ≤ ((updateWaveState s).enemies.length : Int) := by
    exact_mod_cast hlen
  simp only []
  omega

theorem takeDamageG_spec (e : GEnemy) (amount : Int) (kb : Option (Vec3 × ℝ)) :
    (takeDamageG e amount kb).1.hp = e.hp - amount ∧
    (takeDamageG e amount kb).1.isDead = (if e.hp - amount ≤ 0 then true else e.isDead) ∧
    (takeDamageG e amount kb).2 = (if e.hp - amount ≤ 0 then 1 else 0) := by
  obtain _ | ⟨dir, force⟩ := kb <;>
  · simp only [takeDamageG]
    split_ifs <;> simp_all

theorem updateG_dead (d : GEnemy) (env : EnemyEnv) (dt : ℝ) (hd : d.isDead = true) :
    updateG d env dt = (d, false) := by
  simp [updateG, hd]

theorem vec3_length_nonneg (v : Vec3) : 0 ≤ v.length :=
  Real.sqrt_nonneg _

theorem vec3_length_smul (c : ℝ) (v : Vec3) : (Vec3.smul c v).length = |c| * v.length := by
  unfold Vec3.length Vec3.smul
  rw [show (c * v.x) ^ 2 + (c * v.y) ^ 2 + (c * v.z) ^ 2
      = c ^ 2 * (v.x ^ 2 + v.y ^ 2 + v.z ^ 2) by ring]
  rw [Real.sqrt_mul (sq_nonneg c), Real.sqrt_sq_eq_abs]

theorem applyPhysicsG_pushForce_le (e : GEnemy) (dt : ℝ)
    (hdt : 0 ≤ dt) (hf : 0 ≤ e.friction) :
    (applyPhysicsG e dt).pushForce.length ≤ e.pushForce.length := by
  show (Vec3.smul (max 0 (1 - e.friction * dt)) e.pushForce).length ≤ e.pushForce.length
  rw [vec3_length_smul]
  have h0 : (0 : ℝ) ≤ max 0 (1 - e.friction * dt) := le_max_left _ _
  have h1 : max 0 (1 - e.friction * dt) ≤ 1 := max_le (by norm_num) (by nlinarith)
  rw [abs_of_nonneg h0]
  calc max 0 (1 - e.friction * dt) * e.pushForce.length
      ≤ 1 * e.pushForce.length :=
        mul_le_mul_of_nonneg_right h1 (vec3_length_nonneg _)
    _ = e.pushForce.length := one_mul _

theorem updateWanderingG_pushForce (e : GEnemy) (env : EnemyEnv) (dt : ℝ) :
    (updateWanderingG e env dt).pushForce = e.pushForce := by
  unfold updateWanderingG
  dsimp only
  split_ifs <;> rfl

theorem updateChasingG_pushForce_le (e : GEnemy) (env : EnemyEnv) (dt : ℝ)
    (hdt : 0 ≤ dt) (hf : 0 ≤ e.friction) :
    (updateChasingG e env dt).pushForce.length ≤ e.pushForce.length := by
  unfold updateChasingG
  dsimp only
  split_ifs <;> first
    | exact le_rfl
    | exact applyPhysicsG_pushForce_le e dt hdt hf

theorem updateAttackingG_pushForce_le (e : GEnemy) (env : EnemyEnv) (dt : ℝ)
    (hdt : 0 ≤ dt) (hf : 0 ≤ e.friction) :
    (updateAttackingG e env dt).pushForce.length ≤ e.pushForce.length := by
  unfold updateAttackingG
  dsimp only
  split_ifs with h1 h2
  · exact le_rfl
  · exact applyPhysicsG_pushForce_le (attackPlayerG e env) dt hdt hf
  · exact applyPhysicsG_pushForce_le e dt hdt hf

theorem updateStunnedG_pushForce_le (e : GEnemy) (dt : ℝ)
    (hdt : 0 ≤ dt) (hf : 0 ≤ e.friction) :
    (updateStunnedG e dt).pushForce.length ≤ e.pushForce.length := by
  unfold updateStunnedG
  dsimp only
  split_ifs <;> exact applyPhysicsG_pushForce_le e dt hdt hf

theorem vec3_add_def (a b : Vec3) : a + b = ⟨a.x + b.x, a.y + b.y, a.z + b.z⟩ := rfl

theorem vec3_zero_def : (0 : Vec3) = ⟨0, 0, 0⟩ := rfl

theorem vec3_add_assoc (a b c : Vec3) : a + b + c = a + (b + c) := by
  simp [vec3_add_def, Vec3.mk.injEq, add_assoc]

theorem vec3_zero_add (v : Vec3) : 0 + v = v := by
  simp [vec3_add_def, vec3_zero_def]

theorem vec3_add_zero (v : Vec3) : v + 0 = v := by
  simp [vec3_add_def, vec3_zero_def]

theorem foldl_add_vecSum (f : Vec3 → Vec3) (l : List Vec3) (v : Vec3) :
    l.foldl (fun acc q => acc + f q) v = v + vecSum (l.map f) := by
  induction l generalizing v with
  | nil => simp [vecSum, vec3_add_zero]
  | cons a t ih =>
    rw [List.map_cons, List.foldl_cons, ih]
    show v + f a + vecSum (t.map f) = v + (f a + vecSum (t.map f))
    exact vec3_add_assoc v (f a) (vecSum (t.map f))

theorem checkProjectileHitG_cons_nohit (p : GProjectile) (e : GEnemy) (rest : List GEnemy)
    (h : ¬ hitPredG p e) :
    checkProjectileHitG p (e :: rest)
      = ((checkProjectileHitG p rest).1, e :: (checkProjectileHitG p rest).2) := by
  simp only [checkProjectileHitG]
  split_ifs with c1 c2 c3
  · rfl
  · refine absurd ?_ h
    refine ⟨?_, ?_, c2, c3.1, c3.2⟩
    · simpa using (not_or.mp c1).1
    · simpa using (not_or.mp c1).2
  · rfl
  · rfl

theorem checkProjectileHitG_cons_hit (p : GProjectile) (e : GEnemy) (rest : List GEnemy)
    (h : hitPredG p e) :
    checkProjectileHitG p (e :: rest)
      = (some (struckEnemyG p e), struckEnemyG p e :: rest) := by
  obtain ⟨h1, h2, h3, h4, h5⟩ := h
  simp only [checkProjectileHitG]
  rw [if_neg (by simp [h1, h2]), if_pos h3, if_pos ⟨h4, h5⟩]

theorem checkProjectileHitG_none (p : GProjectile) (es : List GEnemy)
    (h : ∀ x ∈ es, ¬ hitPredG p x) :
    checkProjectileHitG p es = (none, es) := by
  induction es with
  | nil => rfl
  | cons a t ih =>
    rw [checkProjectileHitG_cons_nohit p a t (h a (List.mem_cons_self a t)),
      ih (fun x hx => h x (List.mem_cons_of_mem a hx))]

theorem checkProjectileHitG_first (p : GProjectile) (es1 es2 : List GEnemy) (e : GEnemy)
    (hpre : ∀ x ∈ es1, ¬ hitPredG p x) (hhit : hitPredG p e) :
    checkProjectileHitG p (es1 ++ e :: es2)
      = (some (struckEnemyG p e), es1 ++ struckEnemyG p e :: es2) := by
  induction es1 with
  | nil => simpa using checkProjectileHitG_cons_hit p e es2 hhit
  | cons a t ih =>
    rw [List.cons_append,
      checkProjectileHitG_cons_nohit p a _ (hpre a (List.mem_cons_self a t)),
      ih (fun x hx => hpre x (List.mem_cons_of_mem a hx))]
    rfl

/-! ### Claim C5: projectile hit resolution -/

/-- Claim C5: `checkProjectileHit` declares a hit for an enemy exactly
when it is not dead/disposed, the XZ distance from the projectile is
under the sum of the two radii, and the projectile's height above the
enemy base lies inside the scaled height band (`hitPredG`); when no
enemy qualifies it returns `null` and touches nothing; it strikes the
first qualifying enemy in iteration order — returning at most that one
entity, with only that entity updated — and the struck enemy receives
exactly `takeDamage(damage, normalize(enemyPos − projPos),
knockbackForce)`, which subtracts the projectile's damage from its hp. -/
theorem c5_projectile_hit (p : GProjectile) (es es1 es2 : List GEnemy) (e : GEnemy) :
    ((∀ x ∈ es, ¬ hitPredG p x) → checkProjectileHitG p es = (none, es)) ∧
    (es = es1 ++ e :: es2 → (∀ x ∈ es1, ¬ hitPredG p x) → hitPredG p e →
      checkProjectileHitG p es
        = (some (struckEnemyG p e), es1 ++ struckEnemyG p e :: es2)) ∧
    (struckEnemyG p e
      = (takeDamageG e p.damage
          (some (Vec3.normalize (e.meshPos - p.pos), p.knockbackForce))).1) ∧
    (struckEnemyG p e).hp = e.hp - p.damage := by
  refine ⟨checkProjectileHitG_none p es, fun heq hpre hhit => ?_, rfl, ?_⟩
  · rw [heq]
    exact checkProjectileHitG_first p es1 es2 e hpre hhit
  · exact (takeDamageG_spec e p.damage _).1

/-- Witness for C5: a concrete projectile 1 unit above a live enemy at
the same XZ position strikes it (first and only match). -/
theorem c5_projectile_hit_witness :
    checkProjectileHitG c5Proj [c5Enemy]
      = (some (struckEnemyG c5Proj c5Enemy), [struckEnemyG c5Proj c5Enemy]) := by
  have hhit : hitPredG c5Proj c5Enemy := by
    refine ⟨rfl, rfl, ?_, ?_, ?_⟩
    · show Real.sqrt ((0 - 0) ^ 2 + (0 - 0) ^ 2) < 1.44 + projEffRadius c5Proj
      have hr : projEffRadius c5Proj = 0.3 := by
        unfold projEffRadius
        rw [if_neg (by norm_num [c5Proj])]
        norm_num [c5Proj]
      rw [hr, show ((0 : ℝ) - 0) ^ 2 + (0 - 0) ^ 2 = 0 by norm_num, Real.sqrt_zero]
      norm_num
    · show (0 : ℝ) < 1 - 0
      norm_num
    · show (1 : ℝ) - 0 < 3.0 * (1.2 : ℝ)
      norm_num
  have h := (c5_projectile_hit c5Proj [c5Enemy] [] [] c5Enemy).2.1 rfl (by simp) hhit
  simpa using h

/-- Claim C9: `applySeparation` displaces the position by exactly the sum,
over the other active entities, of one contribution each; a neighbor's
contribution is the unit away-vector scaled by
`SEPARATION_FORCE_MULTIPLIER * deltaTime` when it lies strictly within
the separation radius at nonzero distance, and zero otherwise — in
particular a neighbor at the exact same position (distance 0)
contributes nothing; and the step changes no field other than
`position`. -/
theorem c9_apply_separation (e : OEnemy) (others : List Vec3) (dt : ℝ) :
    (applySeparationO e others dt).position
      = e.position + vecSum (others.map (sepContrib e dt)) ∧
    (∀ q : Vec3, Vec3.dist e.position q < e.separationRadius → 0 < Vec3.dist e.position q →
      sepContrib e dt q
        = Vec3.smul (separationForceMultiplier * dt) (Vec3.normalize (e.position - q))) ∧
    (∀ q : Vec3, ¬ (Vec3.dist e.position q < e.separationRadius ∧ 0 < Vec3.dist e.position q) →
      sepContrib e dt q = 0) ∧
    (∀ q : Vec3, Vec3.dist e.position q = 0 → sepContrib e dt q = 0) ∧
    (applySeparationO e others dt).velocity = e.velocity ∧
    (applySeparationO e others dt).knockbackVelocity = e.knockbackVelocity ∧
    (applySeparationO e others dt).currentHP = e.currentHP ∧
    (applySeparationO e others dt).maxHP = e.maxHP ∧
    (applySeparationO e others dt).state = e.state ∧
    (applySeparationO e others dt).isStunned = e.isStunned ∧
    (applySeparationO e others dt).stunDuration = e.stunDuration ∧
    (applySeparationO e others dt).lastAttackTime = e.lastAttackTime := by
  refine ⟨?_, fun q h1 h2 => ?_, fun q h => ?_, fun q h => ?_,
    rfl, rfl, rfl, rfl, rfl, rfl, rfl, rfl⟩
  · show e.position + others.foldl (fun acc q => acc + sepContrib e dt q) 0 = _
    rw [foldl_add_vecSum, vec3_zero_add]
  · exact if_pos ⟨h1, h2⟩
  · exact if_neg h
  · exact if_neg (by rintro ⟨-, h2⟩; rw [h] at h2; exact lt_irrefl 0 h2)

/-! ### Claim C8: monotone knockback decay -/

set_option maxHeartbeats 1000000 in
/-- Claim C8: in the absence of new damage, one `Enemy.update` tick never
increases the magnitude of `pushForce`, whatever alive state the entity
is in (a dead entity's update leaves it untouched as well); each physics
tick scales `pushForce` by exactly `max(0, 1 − friction·dt)`, a factor in
`[0, 1]` for `dt ≥ 0`. -/
theorem c8_push_force_decay (e : GEnemy) (env : EnemyEnv) (dt : ℝ)
    (hdt : 0 ≤ dt) (hf : 0 ≤ e.friction) :
    ((updateG e env dt).1.pushForce).length ≤ e.pushForce.length ∧
    (applyPhysicsG e dt).pushForce = Vec3.smul (max 0 (1 - e.friction * dt)) e.pushForce ∧
    0 ≤ max 0 (1 - e.friction * dt) ∧
    max 0 (1 - e.friction * dt) ≤ 1 := by
  refine ⟨?_, rfl, le_max_left _ _, max_le (by norm_num) (by nlinarith)⟩
  unfold updateG
  dsimp only
  split_ifs with hdead hboss htimer
  · exact le_rfl
  · cases hst : e.state <;> dsimp only
    · rw [updateWanderingG_pushForce]
    · exact updateChasingG_pushForce_le _ env dt hdt hf
    · exact updateAttackingG_pushForce_le _ env dt hdt hf
    · exact updateStunnedG_pushForce_le _ dt hdt hf
  · cases hst : e.state <;> dsimp only
    · rw [updateWanderingG_pushForce]
    · exact updateChasingG_pushForce_le _ env dt hdt hf
    · exact updateAttackingG_pushForce_le _ env dt hdt hf
    · exact updateStunnedG_pushForce_le _ dt hdt hf
  · cases hst : e.state <;> dsimp only
    · rw [updateWanderingG_pushForce]
    · exact updateChasingG_pushForce_le _ env dt hdt hf
    · exact updateAttackingG_pushForce_le _ env dt hdt hf
    · exact updateStunnedG_pushForce_le _ dt hdt hf

/-- Witness for C8 at a concrete enemy, environment and `dt = 1/60`. -/
theorem c8_push_force_decay_witness :
    ((updateG c1Enemy cEnv (1 / 60)).1.pushForce).length ≤ c1Enemy.pushForce.length :=
  (c8_push_force_decay c1Enemy cEnv (1 / 60) (by norm_num) (by norm_num [c1Enemy])).1

/-! ### Claim C1: takeDamage, hp bounds, death transition -/

/-- Claim C1 (amended): `takeDamage` decrements `hp` without clamping, so
`hp` may become negative after an over-kill hit; `hp ≤ maxHp` is
preserved for nonnegative damage; the call in which `hp` drops to `≤ 0`
performs exactly one transition to the dead state and emits exactly one
death notification to the owning manager, and a call leaving `hp > 0`
performs none; a dead entity's `update` is a complete no-op; and the
health fraction the manager reports is clamped at 0, so an over-killed
entity is displayed as 0, never negative. -/
theorem c1_take_damage (e : GEnemy) (amount : Int) (kb : Option (Vec3 × ℝ)) :
    (takeDamageG e amount kb).1.hp = e.hp - amount ∧
    (e.hp - amount ≤ 0 →
      (takeDamageG e amount kb).1.isDead = true ∧ (takeDamageG e amount kb).2 = 1) ∧
    (0 < e.hp - amount →
      (takeDamageG e amount kb).1.isDead = e.isDead ∧ (takeDamageG e amount kb).2 = 0) ∧
    (0 ≤ amount → e.hp ≤ e.config.hp → (takeDamageG e amount kb).1.hp ≤ e.config.hp) ∧
    (∀ (d : GEnemy) (env : EnemyEnv) (dt : ℝ), d.isDead = true → updateG d env dt = (d, false)) ∧
    (∀ hp maxHp : ℚ, hp ≤ 0 → 0 < maxHp → bossBarHeightPercent hp maxHp = 0) := by
  obtain ⟨h1, h2, h3⟩ := takeDamageG_spec e amount kb
  refine ⟨h1, fun hle => ?_, fun hpos => ?_, fun ha hb => ?_, updateG_dead, ?_⟩
  · rw [h2, h3, if_pos hle, if_pos hle]
    exact ⟨rfl, rfl⟩
  · rw [h2, h3, if_neg (by omega), if_neg (by omega)]
    exact ⟨rfl, rfl⟩
  · rw [h1]; omega
  · intro hp maxHp hh hm
    have hd : hp / maxHp ≤ 0 := div_nonpos_of_nonpos_of_nonneg hh hm.le
    have hmul : hp / maxHp * 100 ≤ 0 := by nlinarith
    exact max_eq_left hmul

/-- Counterexample for C1 as stated: an entity at 10 hp taking 25 damage
is left with stored `hp = -15`, violating `0 ≤ hp` (the entity does die
with a single notification). -/
theorem c1_take_damage_counterexample :
    (takeDamageG c1Enemy 25 none).1.hp = -15 ∧
    ¬ (0 ≤ (takeDamageG c1Enemy 25 none).1.hp) ∧
    (takeDamageG c1Enemy 25 none).1.isDead = true ∧
    (takeDamageG c1Enemy 25 none).2 = 1 := by
  have h := takeDamageG_spec c1Enemy 25 none
  have hhp : c1Enemy.hp = 10 := rfl
  have hd : c1Enemy.hp - 25 ≤ 0 := by rw [hhp]; norm_num
  refine ⟨?_, ?_, ?_, ?_⟩
  · rw [h.1, hhp]; norm_num
  · rw [h.1, hhp]; norm_num
  · rw [h.2.1, if_pos hd]
  · rw [h.2.2, if_pos hd]

/-! ### Claim C3: spawn-count and population caps -/

/-- Claim C3 (amended): in every reachable `HordeState`,
`spawnedCount ≤ totalInWave`; a wave frame whose spawn would exceed the
population cap leaves `spawnedCount` and `pendingSpawns` untouched (the
request is silently skipped and, the counters being unchanged, retried on
the next eligible frame); and a wave frame preserves
`enemies.length + pendingSpawns ≤ maxActiveEnemies`.  The cap is NOT an
invariant of all reachable states, because the boss's clone-summon path
(`bossSummon` → `executeSpawn`) registers enemies without any cap check —
see the counterexample. -/
theorem c3_population_caps (evs : List Ev) (s : HordeState) (dt : Int) (r : Fin 4) :
    ((runEvents initHorde evs).enemiesSpawnedCount
      ≤ (runEvents initHorde evs).totalEnemiesInWave) ∧
    (s.phase = Phase.wave →
      ¬ ((s.enemies.length : Int) + s.pendingSpawns < (s.maxActiveEnemies : Int)) →
      (managerUpdate s dt r).enemiesSpawnedCount = s.enemiesSpawnedCount ∧
      (managerUpdate s dt r).pendingSpawns = s.pendingSpawns ∧
      (managerUpdate s dt r).maxActiveEnemies = s.maxActiveEnemies) ∧
    (s.phase = Phase.wave →
      (s.enemies.length : Int) + s.pendingSpawns ≤ (s.maxActiveEnemies : Int) →
      ((managerUpdate s dt r).enemies.length : Int) + (managerUpdate s dt r).pendingSpawns
        ≤ (s.maxActiveEnemies : Int)) :=
  ⟨(counterInv_run evs).1,
   fun hw hcap => managerUpdate_wave_skip s dt r hw hcap,
   fun hw hsum => managerUpdate_wave_cap s dt r hw hsum⟩

set_option maxRecDepth 12000 in
/-- Counterexample for C3 as stated: running the game to the level-5 boss
wave and letting the boss summon three clone batches yields a reachable
state with 19 live entities and no pending spawns against a cap of 15 —
the clone-summon spawn path enforces no cap. -/
theorem c3_population_caps_counterexample :
    (runEvents initHorde c3Trace).maxActiveEnemies = 15 ∧
    ((runEvents initHorde c3Trace).maxActiveEnemies : Int)
      < (liveEnemyCount (runEvents initHorde c3Trace) : Int)
        + (runEvents initHorde c3Trace).pendingSpawns := by
  have h01 : runEvents initHorde preWave = cleanState Phase.wave 1 0 7 0 0 0 := by decide
  have h02 : runEvents (cleanState Phase.wave 1 0 7 0 0 0) (waveBody 7 (hitRun 0 7 1))
      = cleanState Phase.rest 2 5000 7 7 7 7 := by decide
  have h03 : runEvents (cleanState Phase.rest 2 5000 7 7 7 7) preWave
      = cleanState Phase.wave 2 0 9 0 0 7 := by decide
  have h04 : runEvents (cleanState Phase.wave 2 0 9 0 0 7)
        (waveBody 9 (hitRun 0 1 6 ++ hitRun 1 8 1))
      = cleanState Phase.rest 3 5000 9 9 9 16 := by decide
  have h05 : runEvents (cleanState Phase.rest 3 5000 9 9 9 16) preWave
      = cleanState Phase.wave 3 0 11 0 0 16 := by decide
  have h06 : runEvents (cleanState Phase.wave 3 0 11 0 0 16) (waveBody 11 (hitRun 0 11 2))
      = cleanState Phase.rest 4 5000 11 11 11 27 := by decide
  have h07 : runEvents (cleanState Phase.rest 4 5000 11 11 11 27) preWave
      = cleanState Phase.wave 4 0 13 0 0 27 := by decide
  have h08 : runEvents (cleanState Phase.wave 4 0 13 0 0 27)
        (waveBody 13 (hitRun 0 2 8 ++ hitRun 2 11 2))
      = cleanState Phase.rest 5 5000 13 13 13 40 := by decide
  have h09 : runEvents (cleanState Phase.rest 5 5000 13 13 13 40) preWave
      = cleanState Phase.wave 5 0 1 0 0 40 := by decide
  have h10 : runEvents (cleanState Phase.wave 5 0 1 0 0 40) bossSpawnSeg
      = bossWaveState 0 [] := by decide
  have h11 : runEvents (bossWaveState 0 []) (tickN 120)
      = bossWaveState 4000 (List.replicate 6 (cloneConfig 5)) := by decide
  have h12 : runEvents (bossWaveState 4000 (List.replicate 6 (cloneConfig 5))) (tickN 120)
      = bossWaveState 0 (List.replicate 18 (cloneConfig 5)) := by decide
  have hsplit : runEvents initHorde c3Trace
      = runEvents (bossWaveState 0 (List.replicate 18 (cloneConfig 5))) (spawnTimeouts 18) := by
    simp only [c3Trace, runEvents_append, h01, h02, h03, h04, h05, h06, h07, h08, h09,
      h10, h11, h12]
  rw [hsplit]
  decide

/-! ### Claim C6: spawn telegraph lifecycle -/

/-- Claim C6: a wave spawn request (`spawnNextEnemy`) increments
`spawnedCount` and `pendingSpawns` immediately and schedules one
telegraph; when the oldest telegraph delay elapses, `pendingSpawns` is
decremented (clamped at 0) and the entity is materialized only if the
phase is still `Wave` or `Announce` — a stale spawn from an interrupted
wave is discarded, never materialized; and along every event sequence
from the initial state `pendingSpawns` never becomes negative. -/
theorem c6_spawn_telegraph (s : HordeState) (evs : List Ev)
    (cfg : MConfig) (rest : List MConfig) :
    ((spawnNextEnemy s).enemiesSpawnedCount = s.enemiesSpawnedCount + 1 ∧
      (spawnNextEnemy s).pendingSpawns = s.pendingSpawns + 1 ∧
      (spawnNextEnemy s).pendingTimers =
        s.pendingTimers ++ [spawnConfigFor s.hordeLevel (s.enemiesSpawnedCount + 1)] ∧
      (spawnNextEnemy s).enemies = s.enemies) ∧
    (s.pendingTimers = cfg :: rest →
      (executeSpawnTimeout s).pendingSpawns = max 0 (s.pendingSpawns - 1) ∧
      (executeSpawnTimeout s).pendingTimers = rest ∧
      ((s.phase = Phase.wave ∨ s.phase = Phase.announce) →
        (executeSpawnTimeout s).enemies = s.enemies ++
          [{ id := s.nextId, config := cfg, hp := cfg.hp, dead := false, summonTimer := 0 }]) ∧
      (s.phase ≠ Phase.wave → s.phase ≠ Phase.announce →
        (executeSpawnTimeout s).enemies = s.enemies ∧
        (executeSpawnTimeout s).nextId = s.nextId)) ∧
    0 ≤ (runEvents initHorde evs).pendingSpawns := by
  refine ⟨⟨?_, ?_, ?_, ?_⟩, fun hpt => ?_, (counterInv_run evs).2⟩
  · simp [spawnNextEnemy, executeSpawn]
  · simp [spawnNextEnemy, executeSpawn]
  · simp [spawnNextEnemy, executeSpawn]
  · simp [spawnNextEnemy, executeSpawn]
  · unfold executeSpawnTimeout
    rw [hpt]
    dsimp only
    refine ⟨?_, ?_, fun hph => ?_, fun hw ha => ?_⟩
    · split_ifs <;> rfl
    · split_ifs <;> rfl
    · rw [if_neg (by rcases hph with h | h <;> simp [h])]
    · rw [if_pos ⟨hw, ha⟩]
      exact ⟨rfl, rfl⟩

/-- Witness for C6's telegraph clause at a concrete state: a stale
telegraph elapsing in the `Rest` phase decrements nothing below zero and
materializes no enemy. -/
theorem c6_spawn_telegraph_witness :
    (executeSpawnTimeout (clearAllEnemies (executeSpawn initHorde (cloneConfig 1)))).pendingSpawns
      = 0 ∧
    (executeSpawnTimeout (clearAllEnemies (executeSpawn initHorde (cloneConfig 1)))).enemies
      = [] := by
  have h := c6_spawn_telegraph (clearAllEnemies (executeSpawn initHorde (cloneConfig 1))) []
    (cloneConfig 1) []
  obtain ⟨hp, hpt2, -, hstale⟩ := h.2.1 (by decide)
  obtain ⟨he, -⟩ := hstale (by decide) (by decide)
  refine ⟨hp.trans (by decide), he.trans (by decide)⟩

/-! ### Claim C4: wave sizing and archetype selection -/

/-- Claim C4: for every level `L ≥ 1`, a boss level (`L % 5 = 0`) has a
1-entity wave whose boss has `hp = 400 + 50·L`; an even non-boss level
has `5 + 2·L` spawns of which exactly the first `⌊L/2⌋` are mini-bosses
(`hp = 120 + 15·L`) and the rest normal (`hp = 20 + 2·L`); an odd
non-boss level has `5 + 2·L` normal spawns.  (`spawnConfigFor L i` is the
config `spawnNextEnemy` picks for the wave's `i`-th spawn, `i` being the
already-incremented `enemiesSpawnedCount`.) -/
theorem c4_wave_sizing (L : Nat) (_hL : 1 ≤ L) :
    (L % 5 = 0 →
      calculateWaveSize L = 1 ∧
      spawnConfigFor L 1 =
        { kind := EKind.normal, hp := 400 + (L : Int) * 50, isMiniBoss := false, isBoss := true }) ∧
    (L % 5 ≠ 0 → L % 2 = 0 →
      calculateWaveSize L = 5 + 2 * L ∧
      ∀ i, 1 ≤ i → i ≤ calculateWaveSize L →
        (i ≤ L / 2 →
          spawnConfigFor L i =
            { kind := EKind.normal, hp := 120 + (L : Int) * 15,
              isMiniBoss := true, isBoss := false }) ∧
        (L / 2 < i →
          spawnConfigFor L i =
            { kind := EKind.normal, hp := 20 + (L : Int) * 2,
              isMiniBoss := false, isBoss := false })) ∧
    (L % 5 ≠ 0 → L % 2 = 1 →
      calculateWaveSize L = 5 + 2 * L ∧
      ∀ i, spawnConfigFor L i =
        { kind := EKind.normal, hp := 20 + (L : Int) * 2,
          isMiniBoss := false, isBoss := false }) := by
  refine ⟨fun h5 => ?_, fun h5 he => ?_, fun h5 ho => ?_⟩
  · constructor
    · simp [calculateWaveSize, h5]
    · simp [spawnConfigFor, h5]
  · refine ⟨by simp [calculateWaveSize, h5]; ring, fun i h1 h2 => ⟨fun hm => ?_, fun hm => ?_⟩⟩
    · simp [spawnConfigFor, h5, he, hm]
    · simp [spawnConfigFor, h5, he, Nat.not_le.mpr hm]
  · have he : ¬ L % 2 = 0 := by omega
    refine ⟨by simp [calculateWaveSize, h5]; ring, fun i => ?_⟩
    simp [spawnConfigFor, h5, he]

/-- Witness for C4 at the spec's own scenarios: level 5 (boss, hp 650)
and level 4 (13 spawns, second spawn a mini-boss with hp 180, third
normal with hp 28). -/
theorem c4_wave_sizing_witness :
    calculateWaveSize 5 = 1 ∧
    spawnConfigFor 5 1 = { kind := EKind.normal, hp := 650, isMiniBoss := false, isBoss := true } ∧
    calculateWaveSize 4 = 13 ∧
    spawnConfigFor 4 2 =
      { kind := EKind.normal, hp := 180, isMiniBoss := true, isBoss := false } ∧
    spawnConfigFor 4 3 =
      { kind := EKind.normal, hp := 28, isMiniBoss := false, isBoss := false } := by
  have h5 := (c4_wave_sizing 5 (by norm_num)).1 (by norm_num)
  have h4 := (c4_wave_sizing 4 (by norm_num)).2.1 (by norm_num) (by norm_num)
  refine ⟨h5.1, h5.2.trans (by decide), by simpa using h4.1, ?_, ?_⟩
  · exact ((h4.2 2 (by norm_num) (by simp [h4.1])).1 (by norm_num)).trans (by decide)
  · exact ((h4.2 3 (by norm_num) (by simp [h4.1])).2 (by norm_num)).trans (by decide)

/-! ### Claim C2: boss death cascade and kill accounting -/

/-- Claim C2 (amended): `handleEnemyDeath` on a boss clears the boss
reference and applies `takeDamage(9999, null, 0)` to every live
clone-kind entity in the same update — which kills exactly those clones
whose hp is at most 9999 (all clones spawned below level 9985, since a
clone spawns with `hp = 15 + level`), not literally every live clone;
a non-boss death leaves the entity list and boss reference alone;
non-clone deaths in the `Wave` phase increment `killedCount` by exactly
1, and clone deaths (or deaths outside `Wave`) never do. -/
theorem c2_boss_death_cascade (s : HordeState) (cfg : MConfig) :
    (cfg.isBoss = true →
      (handleEnemyDeath s cfg).currentBoss = none ∧
      ∀ (i : Nat) (e : MEnemy), s.enemies[i]? = some e →
        e.config.kind = EKind.clone → e.dead = false →
        (handleEnemyDeath s cfg).enemies[i]? = some (takeDamageM e 9999) ∧
        (takeDamageM e 9999).hp = e.hp - 9999 ∧
        (e.hp ≤ 9999 → (takeDamageM e 9999).dead = true)) ∧
    (cfg.isBoss = false →
      (handleEnemyDeath s cfg).enemies = s.enemies ∧
      (handleEnemyDeath s cfg).currentBoss = s.currentBoss) ∧
    (s.phase = Phase.wave → cfg.kind ≠ EKind.clone →
      (handleEnemyDeath s cfg).enemiesKilledCount = s.enemiesKilledCount + 1) ∧
    (cfg.kind = EKind.clone →
      (handleEnemyDeath s cfg).enemiesKilledCount = s.enemiesKilledCount) ∧
    (s.phase ≠ Phase.wave →
      (handleEnemyDeath s cfg).enemiesKilledCount = s.enemiesKilledCount) := by
  refine ⟨fun hb => ⟨?_, fun i e hi hk hd => ⟨?_, ?_, fun hhp => ?_⟩⟩,
    fun hb => ?_, fun hw hk => ?_, fun hk => ?_, fun hw => ?_⟩
  · unfold handleEnemyDeath
    simp only [hb, if_true]
    split <;> rfl
  · unfold handleEnemyDeath
    simp only [hb, if_true]
    split <;> simp [List.getElem?_map, hi, hk, hd]
  · simp [takeDamageM]
  · simp only [takeDamageM]
    have : e.hp - 9999 ≤ 0 := by omega
    simp [this]
  · unfold handleEnemyDeath
    simp only [hb, Bool.false_eq_true, if_false]
    split <;> exact ⟨rfl, rfl⟩
  · unfold handleEnemyDeath
    split <;> simp [hw, hk]
  · unfold handleEnemyDeath
    split <;> simp [hk]
  · unfold handleEnemyDeath
    split <;> simp [hw]

/-- Counterexample for C2 as stated: at level 9985 a clone spawns with
10000 hp; when the boss dies, the cascade's fixed 9999 damage leaves
that live clone alive (hp 1), so not every live clone is force-killed. -/
theorem c2_boss_death_cascade_counterexample :
    (hitEnemy c2CexState 0 (projDamage ProjKind.fireball)).currentBoss = none ∧
    ((hitEnemy c2CexState 0 (projDamage ProjKind.fireball)).enemies[0]?).map
      (fun e => e.dead) = some true ∧
    ((hitEnemy c2CexState 0 (projDamage ProjKind.fireball)).enemies[1]?).map
      (fun e => e.config.kind) = some EKind.clone ∧
    ((hitEnemy c2CexState 0 (projDamage ProjKind.fireball)).enemies[1]?).map
      (fun e => e.dead) = some false ∧
    ((hitEnemy c2CexState 0 (projDamage ProjKind.fireball)).enemies[1]?).map
      (fun e => e.hp) = some 1 := by
  decide

/-- Witness for C2 at a concrete boss death in the `Wave` phase with one
live ordinary clone: the boss reference is cleared and the kill counter
reaches 1. -/
theorem c2_boss_death_cascade_witness :
    (handleEnemyDeath c2WitState
        { kind := EKind.normal, hp := 650, isMiniBoss := false, isBoss := true }).currentBoss
      = none ∧
    (handleEnemyDeath c2WitState
        { kind := EKind.normal, hp := 650, isMiniBoss := false, isBoss := true }).enemiesKilledCount
      = 1 := by
  have h := c2_boss_death_cascade c2WitState
    { kind := EKind.normal, hp := 650, isMiniBoss := false, isBoss := true }
  exact ⟨(h.1 rfl).1, by simpa using h.2.2.1 rfl (by decide)⟩

/-! ### Claim C7: full reset -/

/-- Claim C7 (amended): `clearAllEnemies` disposes and empties the entity
list, zeroes `pendingSpawns`, resets the level to 1, clears the boss
reference and returns to `Rest` with its full 5 s timer — but it leaves
`totalInWave`, `spawnedCount` and `killedCount` at their previous values
(they are re-zeroed only on the next wave entry) and does not cancel
already-scheduled spawn telegraphs, so the result is not in general the
initial `HordeState`. -/
theorem c7_clear_all_enemies (s : HordeState) :
    (clearAllEnemies s).enemies = [] ∧
    (clearAllEnemies s).pendingSpawns = 0 ∧
    (clearAllEnemies s).hordeLevel = 1 ∧
    (clearAllEnemies s).currentBoss = none ∧
    (clearAllEnemies s).phase = Phase.rest ∧
    (clearAllEnemies s).stateTimer = 5000 ∧
    (clearAllEnemies s).totalEnemiesInWave = s.totalEnemiesInWave ∧
    (clearAllEnemies s).enemiesSpawnedCount = s.enemiesSpawnedCount ∧
    (clearAllEnemies s).enemiesKilledCount = s.enemiesKilledCount ∧
    (clearAllEnemies s).pendingTimers = s.pendingTimers := by
  simp [clearAllEnemies]

set_option maxRecDepth 9000 in
/-- Counterexample for C7 as stated: from the initial state, reach wave 1
and issue one spawn request, then reset — the post-reset state still has
`totalInWave = 7`, `spawnedCount = 1` and a live spawn telegraph, while
the initial `HordeState` has all of these zero, so the reset does not
reproduce the initial state. -/
theorem c7_clear_all_enemies_counterexample :
    (runEvents initHorde c7Trace).phase = Phase.rest ∧
    (runEvents initHorde c7Trace).totalEnemiesInWave = 7 ∧
    (runEvents initHorde c7Trace).enemiesSpawnedCount = 1 ∧
    (runEvents initHorde c7Trace).pendingTimers.length = 1 ∧
    initHorde.totalEnemiesInWave = 0 ∧
    initHorde.enemiesSpawnedCount = 0 ∧
    runEvents initHorde c7Trace ≠ initHorde := by
  decide

/-! ### Claim C10: spell cooldowns -/

/-- Claim C10 (implicit): `castSpell` is a silent no-op while the spell's
recorded cooldown deadline lies in the future (no projectile, no sound,
deadline untouched), and a cast at or after the deadline creates exactly
one projectile, plays one sound and records the new deadline
`now + maxCooldown` (fireball 500 ms, ice 300 ms). -/
theorem c10_cast_spell_cooldown (s : SpellState) (k : SpellKind) (now : Int) :
    (cooldownOf s k ≠ 0 → now < cooldownOf s k → castSpell s k now = s) ∧
    (cooldownOf s k ≤ now →
      (castSpell s k now).projectilesCast = s.projectilesCast ++ [k] ∧
      (castSpell s k now).soundsPlayed = s.soundsPlayed ++ [k] ∧
      cooldownOf (castSpell s k now) k = now + maxCooldownOf k) := by
  constructor
  · intro h1 h2
    simp [castSpell, h1, h2]
  · intro h
    cases k
    · simp only [cooldownOf] at h
      have hc : ¬ (s.cooldownFireball ≠ 0 ∧ now < s.cooldownFireball) := by omega
      simp [castSpell, cooldownOf, maxCooldownOf, hc]
    · simp only [cooldownOf] at h
      have hc : ¬ (s.cooldownIce ≠ 0 ∧ now < s.cooldownIce) := by omega
      simp [castSpell, cooldownOf, maxCooldownOf, hc]

/-- Witness for C10: with a fireball deadline of 1000 a cast at 400 is a
no-op; from a fresh state a cast of ice at 0 creates one projectile. -/
theorem c10_cast_spell_cooldown_witness :
    castSpell { cooldownFireball := 1000 } SpellKind.fireball 400 = { cooldownFireball := 1000 } ∧
    (castSpell {} SpellKind.ice 0).projectilesCast = [SpellKind.ice] ∧
    cooldownOf (castSpell {} SpellKind.ice 0) SpellKind.ice = 300 := by
  refine ⟨(c10_cast_spell_cooldown { cooldownFireball := 1000 } SpellKind.fireball 400).1
      (by decide) (by decide), ?_, ?_⟩
  · exact (((c10_cast_spell_cooldown {} SpellKind.ice 0).2 (by decide)).1).trans (by decide)
  · exact (((c10_cast_spell_cooldown {} SpellKind.ice 0).2 (by decide)).2.2).trans (by decide)

end Magebonk
